import Mathlib

/-!
# Verification of `lib/requester.go` (package `lib`)

A shallow embedding of the ticking HTTP requester.  The Go function
`Requester.Run` is split along its source text:

* `start`   : lines 44-61, ticker creation and installation of the dial override;
* `tick`    : lines 65-107, the body of the `case <-ticker.C` branch;
* `step`    : lines 62-113, one turn of the `select` loop on an event;
* `runLoop` : the `for` loop, driven by the list of events the `select` receives;
* `Run`     : `start` followed by `runLoop`.

Everything the code does to the outside (channel sends, prints, requests, dials,
panics) is recorded as a list of `Effect`s in program order.  Everything the
outside answers during a tick (random number, clock readings, the result of
`http.NewRequest`, of `client.Do`, of `ioutil.ReadAll`) is an input of the tick,
collected in `TickWorld`.
-/

namespace Lib

/-! ## `fmt`: the verbs used by the program -/

/-- An operand of `fmt.Sprintf`: a string (this also stands for an `error`, which
`%s` renders through its `Error()` text) or an `int` / `int64`. -/
inductive Arg where
  | s (v : String)
  | d (v : Int)
  deriving DecidableEq, Repr

/-- Decimal digits of an integer as `%d` prints them: a minus sign, then the digits. -/
def formatInt (v : Int) : List Char :=
  if v < 0 then '-' :: (Nat.repr v.natAbs).data else (Nat.repr v.natAbs).data

/-- Width handling of `fmt`: the field is filled with spaces up to `width`, on the
left by default and on the right under the `-` flag. -/
def padField (minus : Bool) (width : Nat) (body : List Char) : List Char :=
  if minus then body ++ List.replicate (width - body.length) ' '
  else List.replicate (width - body.length) ' ' ++ body

/-- Rendering of one operand under one verb (`%s`, `%d`; a verb that does not fit
the operand gives the `%!verb(type=value)` text of `fmt`). -/
def formatVerb (verb : Char) (a : Arg) : List Char :=
  match a with
  | .s v =>
      if verb = 's' then v.data
      else "%!".data ++ [verb] ++ "(string=".data ++ v.data ++ [')']
  | .d v =>
      if verb = 'd' then formatInt v
      else "%!".data ++ [verb] ++ "(int=".data ++ formatInt v ++ [')']

/-- Scanner state of the format string: plain text, or inside a `%` directive whose
flag and width read so far are kept. -/
inductive FmtState where
  | text
  | spec (minus : Bool) (width : Nat)

/-- The format interpreter: literal characters are copied, `%[-][width]verb`
consumes one operand and `%%` is a percent sign.  The one flag read is `-`.  A
directive without operand, a format that ends inside a directive and operands
left over give marker texts in the manner of `fmt`; the calls of the program reach
none of them. -/
def doPrintf : FmtState → List Char → List Arg → List Char
  | .text, [], [] => []
  | .text, [], _ :: _ => "%!(EXTRA)".data
  | .text, c :: cs, args =>
      if c = '%' then doPrintf (.spec false 0) cs args else c :: doPrintf .text cs args
  | .spec _ _, [], _ => "%!(NOVERB)".data
  | .spec minus width, c :: cs, args =>
      if c = '-' then doPrintf (.spec true width) cs args
      else if c.isDigit then
        doPrintf (.spec minus (10 * width + (c.toNat - '0'.toNat))) cs args
      else if c = '%' then '%' :: doPrintf .text cs args
      else match args with
        | [] => "%!".data ++ [c] ++ "(MISSING)".data ++ doPrintf .text cs []
        | a :: rest => padField minus width (formatVerb c a) ++ doPrintf .text cs rest

/-- Model of `fmt.Sprintf` (and of the text `fmt.Printf` writes). -/
def Sprintf (format : String) (args : List Arg) : String :=
  String.mk (doPrintf .text format.data args)

/-- Model of `fmt.Println` on string operands: the operands separated by one space,
then a newline. -/
def Println (operands : List String) : String :=
  " ".intercalate operands ++ "\n"

/-! ## `strings.Split` on a one-character separator -/

/-- Fields of a character list cut at every occurrence of `sep`; there is always
at least one field. -/
def genSplit (sep : Char) : List Char → List (List Char)
  | [] => [[]]
  | c :: cs =>
      if c = sep then [] :: genSplit sep cs
      else match genSplit sep cs with
        | [] => [[c]]
        | field :: fields => (c :: field) :: fields

/-- Model of `strings.Split(s, sep)` for a separator of one character. -/
def Split (s : String) (sep : Char) : List String :=
  (genSplit sep s.data).map String.mk

/-! ## `time` -/

/-- Largest `time.Duration`. -/
def maxDuration : Int := 2 ^ 63 - 1

/-- Smallest `time.Duration`. -/
def minDuration : Int := -(2 ^ 63)

/-- Model of `time.Since(start)` when the clock then reads `now`; both are
monotonic clock readings in nanoseconds, and the difference saturates at the
bounds of `time.Duration` as `Time.Sub` does. -/
def Since (start now : Int) : Int :=
  if now - start > maxDuration then maxDuration
  else if now - start < minDuration then minDuration
  else now - start

/-- Wrap-around of a mathematical integer to `int64`. -/
def wrap64 (v : Int) : Int := (v + 2 ^ 63) % 2 ^ 64 - 2 ^ 63

/-- Wall-clock time as its calendar fields. -/
structure Time where
  year : Nat
  month : Nat
  day : Nat
  hour : Nat
  minute : Nat
  second : Nat
  deriving DecidableEq, Repr

/-- Decimal digits of `n`, filled with zeros on the left up to `width`. -/
def zeroPad (width n : Nat) : List Char :=
  List.replicate (width - (Nat.repr n).length) '0' ++ (Nat.repr n).data

/-- Layout interpreter of `Time.Format`, for the layout elements the program uses:
`2006`, `01`, `02`, `15`, `04`, `05`; any other character is copied. -/
def formatLayout (t : Time) : List Char → List Char
  | '2' :: '0' :: '0' :: '6' :: rest => zeroPad 4 t.year ++ formatLayout t rest
  | '0' :: '1' :: rest => zeroPad 2 t.month ++ formatLayout t rest
  | '0' :: '2' :: rest => zeroPad 2 t.day ++ formatLayout t rest
  | '1' :: '5' :: rest => zeroPad 2 t.hour ++ formatLayout t rest
  | '0' :: '4' :: rest => zeroPad 2 t.minute ++ formatLayout t rest
  | '0' :: '5' :: rest => zeroPad 2 t.second ++ formatLayout t rest
  | c :: rest => c :: formatLayout t rest
  | [] => []

/-- Model of `t.Format(layout)`. -/
def Time.Format (t : Time) (layout : String) : String :=
  String.mk (formatLayout t layout.data)

/-! ## The requester -/

/-- SlowRequestMs defines after how many millisecond a request is considered as
slow and should be logged. -/
def SlowRequestMs : Int := 500

/-- The fields of `Requester` that hold data.  The two channels are not fields
here: a send on `measureCh` is the effect `Effect.send`, a receive from `stopCh`
is the event `Event.stop`. -/
structure Requester where
  interval : Int
  timeout : Int
  url : String
  resolve : String
  hostHeader : String
  deriving DecidableEq, Repr

/-- The constructor: `hostHeader` is not set, so it is the empty string. -/
def NewRequester (interval timeout : Int) (url resolve : String) : Requester :=
  { interval := interval, timeout := timeout, url := url, resolve := resolve,
    hostHeader := "" }

/-- An `http.Request` as far as the program determines it. -/
structure Request where
  method : String
  url : String
  header : List (String × List String)
  deriving DecidableEq, Repr

/-- An `http.Response` as far as the program can observe it: the status code, the
content of the body stream up to its end, and the error reading the stream
runs into, if any. -/
structure Response where
  statusCode : Int
  body : String
  readErr : Option String
  deriving DecidableEq, Repr

/-- What `client.Do` returns: a transport error (its message) or a response. -/
inductive DoResult where
  | err (msg : String)
  | resp (response : Response)
  deriving DecidableEq, Repr

/-- The four places of the source that write to standard output. -/
inductive PrintSite where
  | dialOriginal
  | dialModified
  | errorLine
  | slowLine
  deriving DecidableEq, Repr

/-- What the program does to the outside, in program order. -/
inductive Effect where
  | newTicker (periodNs : Int)
  | setDialContext
  | now (ns : Int)
  | newRequest (method url : String)
  | clientDo (req : Request) (timeoutNs : Int)
  | dial (addr : String)
  | print (site : PrintSite) (text : String)
  | send (v : Int)
  | readAll
  | closeBody
  | tickerStop
  | panic (msg : String)
  deriving DecidableEq, Repr

/-- Where the loop of `Run` stands. -/
inductive Phase where
  | waiting
  | returned
  | panicked
  deriving DecidableEq, Repr

/-- State of a running `Run`: the requester (its `hostHeader` changes), the loop
phase, whether the ticker runs, the `pieces` captured by the dial function when
one was installed on the default transport, and the number of pending
`defer response.Body.Close()`. -/
structure RunState where
  c : Requester
  phase : Phase
  tickerRunning : Bool
  dialOverride : Option (List String)
  deferred : Nat
  deriving DecidableEq, Repr

/-- What the outside answers during one tick. -/
structure TickWorld where
  /-- Result of `rand.Int()`, a non-negative `int`. -/
  requestID : Nat
  /-- Clock reading of `time.Now()` at `requestStart`. -/
  startNs : Int
  /-- Error of `http.NewRequest`, if any. -/
  buildErr : Option String
  /-- The address the transport asks the dial function to connect to during
  `client.Do`, when it opens a connection. -/
  dial : Option String
  /-- Result of `client.Do`. -/
  doResult : DoResult
  /-- Clock reading inside `time.Since(requestStart)`. -/
  endNs : Int
  /-- Wall-clock time read by the `time.Now()` of the log line. -/
  logTime : Time
  deriving DecidableEq, Repr

/-- The events the `select` of the loop receives. -/
inductive Event where
  | tick (w : TickWorld)
  | stop
  deriving DecidableEq, Repr

/-- Message of the runtime panic of an index expression out of range. -/
def indexOutOfRange (i len : Nat) : String :=
  Sprintf "runtime error: index out of range [%d] with length %d" [.d i, .d len]

/-- The function literal assigned to `DialContext` (lines 54-60), with the
requester and `pieces` it captures.  The result is the effects in order and the
requester afterwards, or `none` when the function panics. -/
def dialContext (c : Requester) (pieces : List String) (addr : String) :
    List Effect × Option Requester :=
  let original := Effect.print .dialOriginal (Println ["address original =", c.resolve])
  match pieces[2]? with
  | none => ([original, .panic (indexOutOfRange 2 pieces.length)], none)
  | some p2 =>
    match pieces[1]? with
    | none => ([original, .panic (indexOutOfRange 1 pieces.length)], none)
    | some p1 =>
      let addr := Sprintf "%s:%s" [.s p2, .s p1]
      let modified := Effect.print .dialModified (Println ["address modified =", addr])
      match pieces[0]? with
      | none => ([original, modified, .panic (indexOutOfRange 0 pieces.length)], none)
      | some p0 => ([original, modified, .dial addr], some { c with hostHeader := p0 })

/-- The dial the default transport performs during `client.Do`: none when no
connection is opened, the installed function when there is one, and otherwise the
stock dialer on the address asked for. -/
def transportDial (s : RunState) : Option String → List Effect × Option Requester
  | none => ([], some s.c)
  | some addr =>
    match s.dialOverride with
    | none => ([.dial addr], some s.c)
    | some pieces => dialContext s.c pieces addr

/-- The deferred `response.Body.Close()` calls, run when `Run` returns or panics. -/
def runDeferred (n : Nat) : List Effect := List.replicate n Effect.closeBody

/-- Lines 44-61 of `Run`: the ticker (`time.NewTicker` panics on a period that is
not positive) and the installation of the dial function. -/
def start (c : Requester) : RunState × List Effect :=
  let period := wrap64 (wrap64 c.interval * 1000)
  if period ≤ 0 then
    ({ c := c, phase := .panicked, tickerRunning := false, dialOverride := none,
       deferred := 0 },
     [.panic "non-positive interval for NewTicker"])
  else if c.resolve.length > 0 then
    let pieces := Split c.resolve ':'
    ({ c := c, phase := .waiting, tickerRunning := true, dialOverride := some pieces,
       deferred := 0 },
     [.newTicker period, .setDialContext])
  else
    ({ c := c, phase := .waiting, tickerRunning := true, dialOverride := none,
       deferred := 0 },
     [.newTicker period])

/-- Lines 65-107 of `Run`: the branch `case <-ticker.C`. -/
def tick (s : RunState) (w : TickWorld) : RunState × List Effect :=
  let requestID : Int := w.requestID
  let urlWithID := Sprintf "%s?%d" [.s s.c.url, .d requestID]
  let timeoutNs := wrap64 (wrap64 s.c.timeout * 1000000)
  let requestStart := w.startNs
  let built := [Effect.now requestStart, Effect.newRequest "GET" urlWithID]
  match w.buildErr with
  | some err =>
      ({ s with phase := .panicked }, built ++ [.panic err] ++ runDeferred s.deferred)
  | none =>
    let req : Request :=
      { method := "GET", url := urlWithID,
        header := if s.c.hostHeader.length > 0 then [("Host", [s.c.hostHeader])] else [] }
    let fired := built ++ [Effect.clientDo req timeoutNs]
    match transportDial s w.dial with
    | (dialed, none) => ({ s with phase := .panicked }, fired ++ dialed)
    | (dialed, some c1) =>
      let elapsed := Since requestStart w.endNs
      let measured := fired ++ dialed ++ [Effect.now w.endNs, Effect.send elapsed]
      match w.doResult with
      | .err err =>
          ({ s with c := c1 },
           measured ++ [.print .errorLine
             (Sprintf "%s | error | %6dms | %s\n"
               [.s (w.logTime.Format "2006-01-02 15:04:05"),
                .d (Int.tdiv elapsed 1000000), .s err])])
      | .resp response =>
        if Int.tdiv elapsed 1000000 > SlowRequestMs then
          match response.readErr with
          | some err =>
              ({ s with c := c1, phase := .panicked, deferred := s.deferred + 1 },
               measured ++ [.readAll, .panic err] ++ runDeferred (s.deferred + 1))
          | none =>
              ({ s with c := c1, deferred := s.deferred + 1 },
               measured ++ [.readAll, .print .slowLine
                 (Sprintf "%s | slow | %6dms | %s | %d\n"
                   [.s (w.logTime.Format "2006-01-02 15:04:05"),
                    .d (Int.tdiv elapsed 1000000), .s response.body, .d requestID])])
        else ({ s with c := c1 }, measured)

/-- One turn of the `select` (lines 62-113): a tick runs `tick`, the stop signal
stops the ticker and returns, which runs the deferred calls.  A loop that has
returned or panicked takes no event. -/
def step (s : RunState) (ev : Event) : Option (RunState × List Effect) :=
  match s.phase with
  | .waiting =>
    match ev with
    | .tick w => some (tick s w)
    | .stop =>
        some ({ s with phase := .returned, tickerRunning := false },
              [.tickerStop] ++ runDeferred s.deferred)
  | _ => none

/-- The event is a tick in which the dial function of the transport runs: the
request is built and `client.Do` opens a connection. -/
def Event.dials : Event → Bool
  | .tick w => w.buildErr.isNone && w.dial.isSome
  | .stop => false

/-- The signal `Requester.Stop` sends on `stopCh`, as the loop receives it. -/
def Stop : Event := Event.stop

/-- The `for` loop on the events received, up to the first event the loop can no
longer take. -/
def runLoop : RunState → List Event → RunState × List Effect
  | s, [] => (s, [])
  | s, ev :: evs =>
    match step s ev with
    | none => (s, [])
    | some (s1, effs) => ((runLoop s1 evs).1, effs ++ (runLoop s1 evs).2)

/-- The whole of `Requester.Run` on the events its `select` receives. -/
def Run (c : Requester) (evs : List Event) : RunState × List Effect :=
  ((runLoop (start c).1 evs).1, (start c).2 ++ (runLoop (start c).1 evs).2)

/-! ## Observations on traces -/

/-- A send on `measureCh`. -/
def Effect.isSend : Effect → Bool
  | .send _ => true
  | _ => false

/-- The error line of line 91. -/
def Effect.isErrorLine : Effect → Bool
  | .print .errorLine _ => true
  | _ => false

/-- The slow line of line 106. -/
def Effect.isSlowLine : Effect → Bool
  | .print .slowLine _ => true
  | _ => false

/-- Any write to standard output. -/
def Effect.isPrint : Effect → Bool
  | .print _ _ => true
  | _ => false

/-- A read of a response body. -/
def Effect.isReadAll : Effect → Bool
  | .readAll => true
  | _ => false

/-- A dial of the stock dialer. -/
def Effect.isDial : Effect → Bool
  | .dial _ => true
  | _ => false

/-- A call of `client.Do`. -/
def Effect.isClientDo : Effect → Bool
  | .clientDo _ _ => true
  | _ => false

/-- A panic. -/
def Effect.isPanic : Effect → Bool
  | .panic _ => true
  | _ => false

/-- `client.Do` was called and returned in the tick: the request was built and the
dial function, if it ran, did not panic. -/
def doReturned (s : RunState) (w : TickWorld) : Prop :=
  w.buildErr = none ∧ (transportDial s w.dial).2 ≠ none

instance (s : RunState) (w : TickWorld) : Decidable (doReturned s w) := by
  unfold doReturned; infer_instance

/-- The request a tick builds (lines 67-82). -/
def builtRequest (s : RunState) (w : TickWorld) : Request :=
  { method := "GET", url := Sprintf "%s?%d" [.s s.c.url, .d (w.requestID : Int)],
    header := if s.c.hostHeader.length > 0 then [("Host", [s.c.hostHeader])] else [] }

/-- The trace of a tick up to the call of `client.Do`. -/
def fired (s : RunState) (w : TickWorld) : List Effect :=
  [Effect.now w.startNs,
   Effect.newRequest "GET" (Sprintf "%s?%d" [.s s.c.url, .d (w.requestID : Int)]),
   Effect.clientDo (builtRequest s w) (wrap64 (wrap64 s.c.timeout * 1000000))]

/-- The trace of a tick up to the send on the channel. -/
def measured (s : RunState) (w : TickWorld) : List Effect :=
  fired s w ++ (transportDial s w.dial).1
    ++ [Effect.now w.endNs, Effect.send (Since w.startNs w.endNs)]

/-- The states `Run` can be in after some events. -/
def Reachable (c : Requester) (s : RunState) : Prop :=
  ∃ evs : List Event, (runLoop (start c).1 evs).1 = s

/-- The error line as the specification words it: the milliseconds with the digits
first and the spaces after them, up to 6 characters. -/
def errorLineDigitsFirst (ts : String) (elapsed : Int) (msg : String) : String :=
  ts ++ " | error | "
    ++ String.mk (formatInt (Int.tdiv elapsed 1000000)
        ++ List.replicate (6 - (formatInt (Int.tdiv elapsed 1000000)).length) ' ')
    ++ "ms | " ++ msg ++ "\n"

/-! ## Concrete inputs -/

/-- A requester without resolve override. -/
def plainRequester : Requester :=
  NewRequester 1000 2000 "http://localhost:9999/ping" ""

/-- A requester with the resolve override of the specification. -/
def overrideRequester : Requester :=
  NewRequester 1000 2000 "http://localhost:9999/ping" "example.com:443:203.0.113.5"

/-- A tick answered in 10 ms with status 200. -/
def fastWorld : TickWorld :=
  { requestID := 42, startNs := 1000, buildErr := none, dial := some "localhost:9999",
    doResult := .resp { statusCode := 200, body := "pong", readErr := none },
    endNs := 10001000, logTime := ⟨2026, 11, 4, 9, 5, 7⟩ }

/-- A tick answered in 600 ms with status 200 and a readable body. -/
def slowWorld : TickWorld :=
  { fastWorld with endNs := 600001000 }

/-- A tick answered in 600 ms whose body cannot be read to its end. -/
def unreadableWorld : TickWorld :=
  { slowWorld with
    doResult := .resp { statusCode := 200, body := "po", readErr := some "unexpected EOF" } }

/-- A tick whose `client.Do` fails after 5 ms. -/
def refusedWorld : TickWorld :=
  { fastWorld with doResult := .err "connection refused", endNs := 5001000 }

/-- A requester whose override has four fields. -/
def fourFieldRequester : Requester :=
  NewRequester 1000 2000 "http://localhost:9999/ping" "a:b:c:d"

/-- A requester whose override has two fields. -/
def twoFieldRequester : Requester :=
  NewRequester 1000 2000 "http://localhost:9999/ping" "a:b"

/-- A tick whose request cannot be built. -/
def malformedWorld : TickWorld :=
  { fastWorld with buildErr := some "invalid URL escape" }

/-! ## Lemmas on the format interpreter -/

theorem padField_zero (minus : Bool) (body : List Char) : padField minus 0 body = body := by
  cases minus <;> simp [padField]

theorem sprintf_url (u : String) (n : Nat) :
    Sprintf "%s?%d" [.s u, .d (n : Int)] = u ++ "?" ++ Nat.repr n := by
  apply String.ext
  have h : ¬ ((n : Int) < 0) := by omega
  simp [Sprintf, doPrintf, formatVerb, padField_zero, formatInt, h]

theorem sprintf_addr (a b : String) : Sprintf "%s:%s" [.s a, .s b] = a ++ ":" ++ b := by
  apply String.ext
  simp [Sprintf, doPrintf, formatVerb, padField_zero]

theorem sprintf_error (ts msg : String) (ms : Int) :
    Sprintf "%s | error | %6dms | %s\n" [.s ts, .d ms, .s msg]
      = ts ++ " | error | " ++ String.mk (padField false 6 (formatInt ms)) ++ "ms | " ++ msg
          ++ "\n" := by
  apply String.ext
  simp [Sprintf, doPrintf, formatVerb, padField_zero]

theorem sprintf_slow (ts body : String) (ms : Int) (n : Nat) :
    Sprintf "%s | slow | %6dms | %s | %d\n" [.s ts, .d ms, .s body, .d (n : Int)]
      = ts ++ " | slow | " ++ String.mk (padField false 6 (formatInt ms)) ++ "ms | " ++ body
          ++ " | " ++ Nat.repr n ++ "\n" := by
  apply String.ext
  have h : ¬ ((n : Int) < 0) := by omega
  simp [Sprintf, doPrintf, formatVerb, padField_zero, formatInt, h]

theorem format_timestamp (t : Time) :
    Time.Format t "2006-01-02 15:04:05"
      = String.mk (zeroPad 4 t.year ++ '-' :: zeroPad 2 t.month ++ '-' :: zeroPad 2 t.day
          ++ ' ' :: zeroPad 2 t.hour ++ ':' :: zeroPad 2 t.minute ++ ':' :: zeroPad 2 t.second) := by
  simp [Time.Format, formatLayout]

/-! ## Lemmas on the dial and on the deferred calls -/

theorem runDeferred_filter (p : Effect → Bool) (hp : p Effect.closeBody = false) (n : Nat) :
    (runDeferred n).filter p = [] := by
  simp [runDeferred, List.filter_eq_nil_iff, List.mem_replicate, hp]

theorem transportDial_no_send (s : RunState) (a : Option String) :
    (transportDial s a).1.filter Effect.isSend = [] := by
  unfold transportDial dialContext
  repeat' split
  all_goals simp [Effect.isSend]

theorem transportDial_no_errorLine (s : RunState) (a : Option String) :
    (transportDial s a).1.filter Effect.isErrorLine = [] := by
  unfold transportDial dialContext
  repeat' split
  all_goals simp [Effect.isErrorLine]

theorem transportDial_no_slowLine (s : RunState) (a : Option String) :
    (transportDial s a).1.filter Effect.isSlowLine = [] := by
  unfold transportDial dialContext
  repeat' split
  all_goals simp [Effect.isSlowLine]

theorem transportDial_no_readAll (s : RunState) (a : Option String) :
    (transportDial s a).1.filter Effect.isReadAll = [] := by
  unfold transportDial dialContext
  repeat' split
  all_goals simp [Effect.isReadAll]

theorem transportDial_no_panic (s : RunState) (a : Option String)
    (h : (transportDial s a).2 ≠ none) :
    (transportDial s a).1.filter Effect.isPanic = [] := by
  revert h
  unfold transportDial dialContext
  repeat' split
  all_goals simp [Effect.isPanic]

/-! ## The branches of a tick -/

theorem step_tick (s : RunState) (w : TickWorld) (h : s.phase = .waiting) :
    step s (.tick w) = some (tick s w) := by
  simp [step, h]

theorem tick_build_fail (s : RunState) (w : TickWorld) (err : String)
    (h : w.buildErr = some err) :
    tick s w = ({ s with phase := .panicked },
      [Effect.now w.startNs,
       Effect.newRequest "GET" (Sprintf "%s?%d" [.s s.c.url, .d (w.requestID : Int)]),
       Effect.panic err] ++ runDeferred s.deferred) := by
  simp [tick, h]

theorem tick_dial_panic (s : RunState) (w : TickWorld)
    (hb : w.buildErr = none) (hd : (transportDial s w.dial).2 = none) :
    tick s w = ({ s with phase := .panicked }, fired s w ++ (transportDial s w.dial).1) := by
  unfold tick
  simp only [hb]
  split
  · rename_i d heq; simp [fired, builtRequest, heq]
  · rename_i d c1 heq; rw [heq] at hd; simp at hd

theorem tick_err (s : RunState) (w : TickWorld) (c1 : Requester) (msg : String)
    (hb : w.buildErr = none) (hd : (transportDial s w.dial).2 = some c1)
    (hr : w.doResult = .err msg) :
    tick s w = ({ s with c := c1 },
      measured s w ++ [Effect.print .errorLine
        (Sprintf "%s | error | %6dms | %s\n"
          [.s (w.logTime.Format "2006-01-02 15:04:05"),
           .d (Int.tdiv (Since w.startNs w.endNs) 1000000), .s msg])]) := by
  unfold tick
  simp only [hb]
  split
  · rename_i d heq; rw [heq] at hd; simp at hd
  · rename_i d c2 heq
    rw [heq] at hd
    simp at hd
    simp [measured, fired, builtRequest, heq, hr, hd]

theorem tick_fast (s : RunState) (w : TickWorld) (c1 : Requester) (r : Response)
    (hb : w.buildErr = none) (hd : (transportDial s w.dial).2 = some c1)
    (hr : w.doResult = .resp r)
    (hms : ¬ Int.tdiv (Since w.startNs w.endNs) 1000000 > SlowRequestMs) :
    tick s w = ({ s with c := c1 }, measured s w) := by
  unfold tick
  simp only [hb]
  split
  · rename_i d heq; rw [heq] at hd; simp at hd
  · rename_i d c2 heq
    rw [heq] at hd
    simp at hd
    simp [measured, fired, builtRequest, heq, hr, hd, hms]

theorem tick_slow (s : RunState) (w : TickWorld) (c1 : Requester) (r : Response)
    (hb : w.buildErr = none) (hd : (transportDial s w.dial).2 = some c1)
    (hr : w.doResult = .resp r)
    (hms : Int.tdiv (Since w.startNs w.endNs) 1000000 > SlowRequestMs)
    (hread : r.readErr = none) :
    tick s w = ({ s with c := c1, deferred := s.deferred + 1 },
      measured s w ++ [Effect.readAll, Effect.print .slowLine
        (Sprintf "%s | slow | %6dms | %s | %d\n"
          [.s (w.logTime.Format "2006-01-02 15:04:05"),
           .d (Int.tdiv (Since w.startNs w.endNs) 1000000), .s r.body,
           .d (w.requestID : Int)])]) := by
  unfold tick
  simp only [hb]
  split
  · rename_i d heq; rw [heq] at hd; simp at hd
  · rename_i d c2 heq
    rw [heq] at hd
    simp at hd
    simp [measured, fired, builtRequest, heq, hr, hd, hms, hread]

theorem tick_slow_read_fail (s : RunState) (w : TickWorld) (c1 : Requester) (r : Response)
    (err : String)
    (hb : w.buildErr = none) (hd : (transportDial s w.dial).2 = some c1)
    (hr : w.doResult = .resp r)
    (hms : Int.tdiv (Since w.startNs w.endNs) 1000000 > SlowRequestMs)
    (hread : r.readErr = some err) :
    tick s w = ({ s with c := c1, phase := .panicked, deferred := s.deferred + 1 },
      measured s w ++ [Effect.readAll, Effect.panic err] ++ runDeferred (s.deferred + 1)) := by
  unfold tick
  simp only [hb]
  split
  · rename_i d heq; rw [heq] at hd; simp at hd
  · rename_i d c2 heq
    rw [heq] at hd
    simp at hd
    simp [measured, fired, builtRequest, heq, hr, hd, hms, hread]

theorem measured_filter_send (s : RunState) (w : TickWorld) :
    (measured s w).filter Effect.isSend = [Effect.send (Since w.startNs w.endNs)] := by
  simp [measured, fired, List.filter_append, transportDial_no_send, Effect.isSend]

theorem measured_filter_errorLine (s : RunState) (w : TickWorld) :
    (measured s w).filter Effect.isErrorLine = [] := by
  simp [measured, fired, List.filter_append, transportDial_no_errorLine, Effect.isErrorLine]

theorem measured_filter_slowLine (s : RunState) (w : TickWorld) :
    (measured s w).filter Effect.isSlowLine = [] := by
  simp [measured, fired, List.filter_append, transportDial_no_slowLine, Effect.isSlowLine]

theorem measured_filter_readAll (s : RunState) (w : TickWorld) :
    (measured s w).filter Effect.isReadAll = [] := by
  simp [measured, fired, List.filter_append, transportDial_no_readAll, Effect.isReadAll]

theorem measured_filter_panic (s : RunState) (w : TickWorld)
    (h : (transportDial s w.dial).2 ≠ none) :
    (measured s w).filter Effect.isPanic = [] := by
  simp [measured, fired, List.filter_append, transportDial_no_panic s w.dial h, Effect.isPanic]

theorem since_in_range (start now : Int)
    (hlo : minDuration ≤ now - start) (hhi : now - start ≤ maxDuration) :
    Since start now = now - start := by
  unfold Since
  rw [if_neg (by omega), if_neg (by omega)]

/-- What a tick in which `client.Do` returned leaves behind: the trace is the
measured part followed by a tail that holds no send. -/
theorem tick_after_do (s : RunState) (w : TickWorld) (h : doReturned s w) :
    ∃ logged, (tick s w).2 = measured s w ++ logged ∧ logged.filter Effect.isSend = [] := by
  obtain ⟨hb, hd⟩ := h
  obtain ⟨c1, hc1⟩ := Option.ne_none_iff_exists'.mp hd
  cases hr : w.doResult with
  | err msg =>
    rw [tick_err s w c1 msg hb hc1 hr]
    exact ⟨_, rfl, by simp [Effect.isSend]⟩
  | resp r =>
    by_cases hms : Int.tdiv (Since w.startNs w.endNs) 1000000 > SlowRequestMs
    · cases hread : r.readErr with
      | none =>
        rw [tick_slow s w c1 r hb hc1 hr hms hread]
        exact ⟨_, rfl, by simp [Effect.isSend]⟩
      | some err =>
        rw [tick_slow_read_fail s w c1 r err hb hc1 hr hms hread]
        refine ⟨[Effect.readAll, Effect.panic err] ++ runDeferred (s.deferred + 1), by simp, ?_⟩
        simp [List.filter_append, runDeferred_filter, Effect.isSend]
    · rw [tick_fast s w c1 r hb hc1 hr hms]
      exact ⟨[], by simp, by simp⟩

/-- C1: in every tick of `Run` whose request was built and whose `client.Do`
returned (response or transport error), exactly one value is sent on the measure
channel; it is the duration `time.Since` computes between the clock reading taken
just before `http.NewRequest` and the one taken just after `client.Do` (their
difference in nanoseconds whenever that fits a `Duration`); and nothing before the
send in the trace of the tick is an error line or a slow line. -/
theorem tick_sends_one_sample (s : RunState) (w : TickWorld)
    (hwait : s.phase = .waiting) (hdo : doReturned s w) :
    ∃ s1 tr, step s (.tick w) = some (s1, tr) ∧
      tr.filter Effect.isSend = [Effect.send (Since w.startNs w.endNs)] ∧
      (∃ req timeoutNs dialed logged,
        tr = [Effect.now w.startNs, Effect.newRequest req.method req.url,
              Effect.clientDo req timeoutNs] ++ dialed
              ++ [Effect.now w.endNs, Effect.send (Since w.startNs w.endNs)] ++ logged ∧
        dialed.filter Effect.isErrorLine = [] ∧ dialed.filter Effect.isSlowLine = [] ∧
        dialed.filter Effect.isSend = [] ∧ logged.filter Effect.isSend = []) ∧
      (minDuration ≤ w.endNs - w.startNs → w.endNs - w.startNs ≤ maxDuration →
        Since w.startNs w.endNs = w.endNs - w.startNs) := by
  obtain ⟨logged, htr, hlog⟩ := tick_after_do s w hdo
  refine ⟨(tick s w).1, (tick s w).2, step_tick s w hwait, ?_, ?_, since_in_range _ _⟩
  · rw [htr, List.filter_append, measured_filter_send, hlog]; rfl
  · refine ⟨builtRequest s w, wrap64 (wrap64 s.c.timeout * 1000000),
      (transportDial s w.dial).1, logged, ?_, transportDial_no_errorLine _ _,
      transportDial_no_slowLine _ _, transportDial_no_send _ _, hlog⟩
    rw [htr]
    rfl

theorem step_none_of_not_waiting (s : RunState) (ev : Event) (h : s.phase ≠ .waiting) :
    step s ev = none := by
  unfold step
  cases hp : s.phase with
  | waiting => exact absurd hp h
  | returned => rfl
  | panicked => rfl

theorem step_isSome_of_waiting (s : RunState) (ev : Event) (h : s.phase = .waiting) :
    (step s ev).isSome = true := by
  cases ev <;> simp [step, h]

/-- C2: in every tick of `Run` an error line is written exactly when `client.Do`
returned an error (a response, whatever its status code, gives none); in that case
the tick writes one error line, no slow line, reads no body, has sent its sample
just before the line, and leaves the loop waiting for its next event. -/
theorem error_line_iff_transport_error (s : RunState) (w : TickWorld)
    (hwait : s.phase = .waiting) :
    ∃ s1 tr, step s (.tick w) = some (s1, tr) ∧
      (tr.filter Effect.isErrorLine ≠ [] ↔ (doReturned s w ∧ ∃ msg, w.doResult = .err msg)) ∧
      (∀ r, w.doResult = .resp r → tr.filter Effect.isErrorLine = []) ∧
      (doReturned s w → ∀ msg, w.doResult = .err msg →
        (tr.filter Effect.isErrorLine).length = 1 ∧
        tr.filter Effect.isSlowLine = [] ∧
        tr.filter Effect.isReadAll = [] ∧
        tr.filter Effect.isSend = [Effect.send (Since w.startNs w.endNs)] ∧
        (∃ pre text, tr = pre ++ [Effect.send (Since w.startNs w.endNs),
                                  Effect.print .errorLine text]) ∧
        s1.phase = .waiting ∧ ∀ ev, (step s1 ev).isSome = true) := by
  refine ⟨(tick s w).1, (tick s w).2, step_tick s w hwait, ?_, ?_, ?_⟩
  · cases hb : w.buildErr with
    | some err =>
      rw [tick_build_fail s w err hb]
      simp [doReturned, hb, List.filter_append, runDeferred_filter, Effect.isErrorLine]
    | none =>
      cases hd : (transportDial s w.dial).2 with
      | none =>
        rw [tick_dial_panic s w hb hd]
        simp [doReturned, hd, fired, List.filter_append, transportDial_no_errorLine,
          Effect.isErrorLine]
      | some c1 =>
        have hret : doReturned s w := ⟨hb, by simp [hd]⟩
        cases hr : w.doResult with
        | err msg =>
          rw [tick_err s w c1 msg hb hd hr]
          simp [hret, List.filter_append, measured_filter_errorLine, Effect.isErrorLine]
        | resp r =>
          by_cases hms : Int.tdiv (Since w.startNs w.endNs) 1000000 > SlowRequestMs
          · cases hread : r.readErr with
            | none =>
              rw [tick_slow s w c1 r hb hd hr hms hread]
              simp [List.filter_append, measured_filter_errorLine, Effect.isErrorLine]
            | some err =>
              rw [tick_slow_read_fail s w c1 r err hb hd hr hms hread]
              simp [List.filter_append, measured_filter_errorLine, runDeferred_filter,
                Effect.isErrorLine]
          · rw [tick_fast s w c1 r hb hd hr hms]
            simp [measured_filter_errorLine]
  · intro r hr
    cases hb : w.buildErr with
    | some err =>
      rw [tick_build_fail s w err hb]
      simp [List.filter_append, runDeferred_filter, Effect.isErrorLine]
    | none =>
      cases hd : (transportDial s w.dial).2 with
      | none =>
        rw [tick_dial_panic s w hb hd]
        simp [fired, List.filter_append, transportDial_no_errorLine, Effect.isErrorLine]
      | some c1 =>
        by_cases hms : Int.tdiv (Since w.startNs w.endNs) 1000000 > SlowRequestMs
        · cases hread : r.readErr with
          | none =>
            rw [tick_slow s w c1 r hb hd hr hms hread]
            simp [List.filter_append, measured_filter_errorLine, Effect.isErrorLine]
          | some err =>
            rw [tick_slow_read_fail s w c1 r err hb hd hr hms hread]
            simp [List.filter_append, measured_filter_errorLine, runDeferred_filter,
              Effect.isErrorLine]
        · rw [tick_fast s w c1 r hb hd hr hms]
          simp [measured_filter_errorLine]
  · intro hret msg hr
    obtain ⟨hb, hd⟩ := hret
    obtain ⟨c1, hc1⟩ := Option.ne_none_iff_exists'.mp hd
    rw [tick_err s w c1 msg hb hc1 hr]
    refine ⟨?_, ?_, ?_, ?_, ?_, hwait, fun ev => step_isSome_of_waiting _ ev hwait⟩
    · simp [List.filter_append, measured_filter_errorLine, Effect.isErrorLine]
    · simp [List.filter_append, measured_filter_slowLine, Effect.isSlowLine]
    · simp [List.filter_append, measured_filter_readAll, Effect.isReadAll]
    · simp [List.filter_append, measured_filter_send, Effect.isSend]
    · exact ⟨fired s w ++ (transportDial s w.dial).1 ++ [Effect.now w.endNs],
        Sprintf "%s | error | %6dms | %s\n"
          [.s (w.logTime.Format "2006-01-02 15:04:05"),
           .d (Int.tdiv (Since w.startNs w.endNs) 1000000), .s msg],
        by simp [measured]⟩

/-- C5: in every tick of `Run`, a failure to build the request ends `Run` by a
panic with no sample sent and nothing written; a failure to read the body of a slow
response ends `Run` by a panic with no slow line written, after the sample of the
tick was sent; a transport error returned by `client.Do` raises no panic and
leaves the loop waiting. -/
theorem local_failures_fatal_transport_errors_not (s : RunState) (w : TickWorld)
    (hwait : s.phase = .waiting) :
    ∃ s1 tr, step s (.tick w) = some (s1, tr) ∧
      (∀ err, w.buildErr = some err →
        s1.phase = .panicked ∧ (∀ ev, step s1 ev = none) ∧ Effect.panic err ∈ tr ∧
        tr.filter Effect.isSend = [] ∧ tr.filter Effect.isPrint = []) ∧
      (∀ r err, doReturned s w → w.doResult = .resp r →
        Int.tdiv (Since w.startNs w.endNs) 1000000 > SlowRequestMs → r.readErr = some err →
        s1.phase = .panicked ∧ (∀ ev, step s1 ev = none) ∧
        tr.filter Effect.isSlowLine = [] ∧
        tr.filter Effect.isSend = [Effect.send (Since w.startNs w.endNs)] ∧
        ∃ pre post, tr = pre ++ Effect.send (Since w.startNs w.endNs) :: post ∧
          Effect.panic err ∈ post) ∧
      (∀ msg, doReturned s w → w.doResult = .err msg →
        s1.phase = .waiting ∧ (∀ ev, (step s1 ev).isSome = true) ∧
        tr.filter Effect.isPanic = []) := by
  refine ⟨(tick s w).1, (tick s w).2, step_tick s w hwait, ?_, ?_, ?_⟩
  · intro err hb
    rw [tick_build_fail s w err hb]
    refine ⟨rfl, fun ev => step_none_of_not_waiting _ ev (by simp), by simp, ?_, ?_⟩
    · simp [List.filter_append, runDeferred_filter, Effect.isSend]
    · simp [List.filter_append, runDeferred_filter, Effect.isPrint]
  · intro r err hret hr hms hread
    obtain ⟨hb, hd⟩ := hret
    obtain ⟨c1, hc1⟩ := Option.ne_none_iff_exists'.mp hd
    rw [tick_slow_read_fail s w c1 r err hb hc1 hr hms hread]
    refine ⟨rfl, fun ev => step_none_of_not_waiting _ ev (by simp), ?_, ?_, ?_⟩
    · simp [List.filter_append, measured_filter_slowLine, runDeferred_filter,
        Effect.isSlowLine]
    · simp [List.filter_append, measured_filter_send, runDeferred_filter, Effect.isSend]
    · exact ⟨fired s w ++ (transportDial s w.dial).1 ++ [Effect.now w.endNs],
        [Effect.readAll, Effect.panic err] ++ runDeferred (s.deferred + 1),
        by simp [measured], by simp⟩
  · intro msg hret hr
    obtain ⟨hb, hd⟩ := hret
    obtain ⟨c1, hc1⟩ := Option.ne_none_iff_exists'.mp hd
    rw [tick_err s w c1 msg hb hc1 hr]
    refine ⟨hwait, fun ev => step_isSome_of_waiting _ ev hwait, ?_⟩
    simp [List.filter_append, measured_filter_panic s w hd, Effect.isPanic]

/-- C9: from a waiting loop the stop event leads to the returned state with the
ticker stopped; the step sends nothing on the measure channel and writes nothing;
the returned state takes no further step, so whatever events follow the stop
signal, the loop does nothing more than that step. -/
theorem stop_terminates_without_send (s : RunState) (hwait : s.phase = .waiting) :
    ∃ s1 tr, step s Stop = some (s1, tr) ∧
      s1.phase = .returned ∧ s1.tickerRunning = false ∧ Effect.tickerStop ∈ tr ∧
      tr.filter Effect.isSend = [] ∧ tr.filter Effect.isPrint = [] ∧
      (∀ ev, step s1 ev = none) ∧
      (∀ evs, runLoop s (Stop :: evs) = (s1, tr)) := by
  refine ⟨{ s with phase := .returned, tickerRunning := false },
    [Effect.tickerStop] ++ runDeferred s.deferred, by simp [step, Stop, hwait], rfl, rfl,
    by simp, ?_, ?_, fun ev => step_none_of_not_waiting _ ev (by simp), ?_⟩
  · simp [List.filter_append, runDeferred_filter, Effect.isSend]
  · simp [List.filter_append, runDeferred_filter, Effect.isPrint]
  · intro evs
    have hnone : ∀ ev, step { s with phase := .returned, tickerRunning := false } ev = none :=
      fun ev => step_none_of_not_waiting _ ev (by simp)
    cases evs with
    | nil => simp [runLoop, step, Stop, hwait]
    | cons ev rest => simp [runLoop, step, Stop, hwait]

/-! ## The threshold -/

theorem tdiv_ms_le_of_lt (e : Int) (h : e < 501000000) : ¬ Int.tdiv e 1000000 > SlowRequestMs := by
  unfold SlowRequestMs
  by_cases hneg : e < 0
  · have h1 : 0 ≤ Int.tdiv (-e) 1000000 := Int.tdiv_nonneg (by omega) (by omega)
    rw [Int.neg_tdiv] at h1
    omega
  · rw [Int.tdiv_eq_ediv (by omega) (by omega)]
    omega

theorem transportDial_mem (s : RunState) (a : Option String) (e : Effect)
    (h : e ∈ (transportDial s a).1) :
    (∃ text, e = Effect.print .dialOriginal text) ∨ (∃ text, e = Effect.print .dialModified text)
      ∨ (∃ addr, e = Effect.dial addr) ∨ (∃ msg, e = Effect.panic msg) := by
  revert h
  unfold transportDial dialContext
  repeat' split
  all_goals intro h
  all_goals simp at h
  all_goals aesop

theorem runDeferred_mem (n : Nat) (e : Effect) (h : e ∈ runDeferred n) : e = Effect.closeBody := by
  simp [runDeferred, List.mem_replicate] at h
  exact h.2

/-- C3, as stated, fails: a response that took 600 ms (more than `SlowRequestMs`)
and came without transport error, but whose body cannot be read to its end, writes
no slow line. -/
theorem slow_line_missing_when_body_unreadable :
    (start plainRequester).1.phase = .waiting ∧
    doReturned (start plainRequester).1 unreadableWorld ∧
    unreadableWorld.doResult
      = .resp { statusCode := 200, body := "po", readErr := some "unexpected EOF" } ∧
    Int.tdiv (Since unreadableWorld.startNs unreadableWorld.endNs) 1000000 > SlowRequestMs ∧
    (step (start plainRequester).1 (.tick unreadableWorld)).map
      (fun r => r.2.filter Effect.isSlowLine) = some [] := by
  decide

/-- C3, amended: in every tick of `Run` whose `client.Do` returned a response and
whose body, when it is read, is read without error, exactly one slow line is
written if the elapsed nanoseconds divided by 1,000,000 with truncation exceed
`SlowRequestMs = 500`, and none otherwise; every elapsed time below 501,000,000 ns,
so 500 ms exactly too, writes no slow line and reads no body, whatever the body. -/
theorem slow_line_iff_over_threshold (s : RunState) (w : TickWorld) (r : Response)
    (hwait : s.phase = .waiting) (hdo : doReturned s w) (hr : w.doResult = .resp r) :
    SlowRequestMs = 500 ∧
    ∃ s1 tr, step s (.tick w) = some (s1, tr) ∧
      (r.readErr = none →
        ((tr.filter Effect.isSlowLine).length = 1 ↔
          Int.tdiv (Since w.startNs w.endNs) 1000000 > SlowRequestMs) ∧
        (¬ Int.tdiv (Since w.startNs w.endNs) 1000000 > SlowRequestMs →
          tr.filter Effect.isSlowLine = [])) ∧
      (Since w.startNs w.endNs < 501000000 →
        tr.filter Effect.isSlowLine = [] ∧ tr.filter Effect.isReadAll = []) := by
  obtain ⟨hb, hd⟩ := hdo
  obtain ⟨c1, hc1⟩ := Option.ne_none_iff_exists'.mp hd
  refine ⟨rfl, (tick s w).1, (tick s w).2, step_tick s w hwait, ?_, ?_⟩
  · intro hread
    by_cases hms : Int.tdiv (Since w.startNs w.endNs) 1000000 > SlowRequestMs
    · rw [tick_slow s w c1 r hb hc1 hr hms hread]
      simp [hms, List.filter_append, measured_filter_slowLine, Effect.isSlowLine]
    · rw [tick_fast s w c1 r hb hc1 hr hms]
      simp [hms, measured_filter_slowLine]
  · intro hlt
    rw [tick_fast s w c1 r hb hc1 hr (tdiv_ms_le_of_lt _ hlt)]
    exact ⟨measured_filter_slowLine s w, measured_filter_readAll s w⟩

/-- Witness of C3 amended, on the 10 ms tick. -/
theorem slow_line_iff_over_threshold_witness :
    SlowRequestMs = 500 ∧
    ∃ s1 tr, step (start plainRequester).1 (.tick fastWorld) = some (s1, tr) ∧
      (({ statusCode := 200, body := "pong", readErr := none } : Response).readErr = none →
        ((tr.filter Effect.isSlowLine).length = 1 ↔
          Int.tdiv (Since fastWorld.startNs fastWorld.endNs) 1000000 > SlowRequestMs) ∧
        (¬ Int.tdiv (Since fastWorld.startNs fastWorld.endNs) 1000000 > SlowRequestMs →
          tr.filter Effect.isSlowLine = [])) ∧
      (Since fastWorld.startNs fastWorld.endNs < 501000000 →
        tr.filter Effect.isSlowLine = [] ∧ tr.filter Effect.isReadAll = []) :=
  slow_line_iff_over_threshold (start plainRequester).1 fastWorld
    { statusCode := 200, body := "pong", readErr := none } (by decide) (by decide) (by decide)

/-- C4: in every tick of `Run` the URL of the request is the configured url, then
`?`, then the decimal digits of the request ID of the tick (a natural number); and
a slow line written in the tick is some text, then the whole body of the response,
then ` | `, then the decimal digits of that same request ID, then the newline. -/
theorem url_and_slow_line_carry_request_id (s : RunState) (w : TickWorld)
    (hwait : s.phase = .waiting) :
    ∃ s1 tr, step s (.tick w) = some (s1, tr) ∧
      Effect.newRequest "GET" (s.c.url ++ "?" ++ Nat.repr w.requestID) ∈ tr ∧
      (∀ m u, Effect.newRequest m u ∈ tr → u = s.c.url ++ "?" ++ Nat.repr w.requestID) ∧
      (∀ req t, Effect.clientDo req t ∈ tr →
        req.url = s.c.url ++ "?" ++ Nat.repr w.requestID) ∧
      (∀ text, Effect.print .slowLine text ∈ tr →
        ∃ r head, w.doResult = .resp r ∧ r.readErr = none ∧
          text = head ++ r.body ++ " | " ++ Nat.repr w.requestID ++ "\n") := by
  refine ⟨(tick s w).1, (tick s w).2, step_tick s w hwait, ?_⟩
  have hdial : ∀ e, e ∈ (transportDial s w.dial).1 →
      (∀ m u, e ≠ Effect.newRequest m u) ∧ (∀ req t, e ≠ Effect.clientDo req t) ∧
      (∀ text, e ≠ Effect.print .slowLine text) := by
    intro e he
    rcases transportDial_mem s w.dial e he with ⟨x, hx⟩ | ⟨x, hx⟩ | ⟨x, hx⟩ | ⟨x, hx⟩ <;>
      simp [hx]
  have hdefer : ∀ n e, e ∈ runDeferred n →
      (∀ m u, e ≠ Effect.newRequest m u) ∧ (∀ req t, e ≠ Effect.clientDo req t) ∧
      (∀ text, e ≠ Effect.print .slowLine text) := by
    intro n e he
    simp [runDeferred_mem n e he]
  have hmeasured : ∀ e, e ∈ measured s w →
      (∀ m u, e = Effect.newRequest m u → u = s.c.url ++ "?" ++ Nat.repr w.requestID) ∧
      (∀ req t, e = Effect.clientDo req t →
        req.url = s.c.url ++ "?" ++ Nat.repr w.requestID) ∧
      (∀ text, e ≠ Effect.print .slowLine text) := by
    intro e he
    simp only [measured, fired, List.mem_append, List.mem_cons, List.mem_singleton,
      List.not_mem_nil, or_false] at he
    rcases he with ((he | he | he) | he) | he | he
    · simp [he]
    · simp [he, sprintf_url]
    · simp [he, builtRequest, sprintf_url]
    · obtain ⟨h1, h2, h3⟩ := hdial e he
      exact ⟨fun m u h => absurd h (h1 m u), fun req t h => absurd h (h2 req t), h3⟩
    · simp [he]
    · simp [he]
  have hfirst : Effect.newRequest "GET" (s.c.url ++ "?" ++ Nat.repr w.requestID)
      ∈ measured s w := by
    simp [measured, fired, sprintf_url]
  cases hb : w.buildErr with
  | some err =>
    rw [tick_build_fail s w err hb]
    refine ⟨by simp [sprintf_url], ?_, ?_, ?_⟩
    · intro m u h
      simp only [List.mem_append, List.mem_cons, List.not_mem_nil, or_false] at h
      rcases h with (h | h | h) | h
      · simp at h
      · simp [sprintf_url] at h; exact h.2
      · simp at h
      · exact absurd rfl ((hdefer _ _ h).1 m u)
    · intro req t h
      simp only [List.mem_append, List.mem_cons, List.not_mem_nil, or_false] at h
      rcases h with (h | h | h) | h
      · simp at h
      · simp at h
      · simp at h
      · exact absurd rfl ((hdefer _ _ h).2.1 req t)
    · intro text h
      simp only [List.mem_append, List.mem_cons, List.not_mem_nil, or_false] at h
      rcases h with (h | h | h) | h
      · simp at h
      · simp at h
      · simp at h
      · exact absurd rfl ((hdefer _ _ h).2.2 text)
  | none =>
    cases hd : (transportDial s w.dial).2 with
    | none =>
      rw [tick_dial_panic s w hb hd]
      have hfired : ∀ e, e ∈ fired s w ++ (transportDial s w.dial).1 → e ∈ measured s w := by
        intro e he
        unfold measured
        exact List.mem_append_left _ he
      refine ⟨by simp [fired, sprintf_url], ?_, ?_, ?_⟩
      · intro m u h; exact (hmeasured _ (hfired _ h)).1 m u rfl
      · intro req t h; exact (hmeasured _ (hfired _ h)).2.1 req t rfl
      · intro text h; exact absurd rfl ((hmeasured _ (hfired _ h)).2.2 text)
    | some c1 =>
      cases hr : w.doResult with
      | err msg =>
        rw [tick_err s w c1 msg hb hd hr]
        refine ⟨List.mem_append_left _ hfirst, ?_, ?_, ?_⟩
        · intro m u h
          rcases List.mem_append.mp h with h | h
          · exact (hmeasured _ h).1 m u rfl
          · simp at h
        · intro req t h
          rcases List.mem_append.mp h with h | h
          · exact (hmeasured _ h).2.1 req t rfl
          · simp at h
        · intro text h
          rcases List.mem_append.mp h with h | h
          · exact absurd rfl ((hmeasured _ h).2.2 text)
          · simp at h
      | resp r =>
        by_cases hms : Int.tdiv (Since w.startNs w.endNs) 1000000 > SlowRequestMs
        · cases hread : r.readErr with
          | none =>
            rw [tick_slow s w c1 r hb hd hr hms hread]
            refine ⟨List.mem_append_left _ hfirst, ?_, ?_, ?_⟩
            · intro m u h
              rcases List.mem_append.mp h with h | h
              · exact (hmeasured _ h).1 m u rfl
              · simp at h
            · intro req t h
              rcases List.mem_append.mp h with h | h
              · exact (hmeasured _ h).2.1 req t rfl
              · simp at h
            · intro text h
              rcases List.mem_append.mp h with h | h
              · exact absurd rfl ((hmeasured _ h).2.2 text)
              · simp at h
                refine ⟨r, w.logTime.Format "2006-01-02 15:04:05" ++ " | slow | "
                  ++ String.mk (padField false 6
                      (formatInt (Int.tdiv (Since w.startNs w.endNs) 1000000)))
                  ++ "ms | ", rfl, hread, ?_⟩
                rw [h, sprintf_slow]
          | some err =>
            rw [tick_slow_read_fail s w c1 r err hb hd hr hms hread]
            refine ⟨List.mem_append_left _ (List.mem_append_left _ hfirst), ?_, ?_, ?_⟩
            · intro m u h
              rcases List.mem_append.mp h with h | h
              · rcases List.mem_append.mp h with h | h
                · exact (hmeasured _ h).1 m u rfl
                · simp at h
              · exact absurd rfl ((hdefer _ _ h).1 m u)
            · intro req t h
              rcases List.mem_append.mp h with h | h
              · rcases List.mem_append.mp h with h | h
                · exact (hmeasured _ h).2.1 req t rfl
                · simp at h
              · exact absurd rfl ((hdefer _ _ h).2.1 req t)
            · intro text h
              rcases List.mem_append.mp h with h | h
              · rcases List.mem_append.mp h with h | h
                · exact absurd rfl ((hmeasured _ h).2.2 text)
                · simp at h
              · exact absurd rfl ((hdefer _ _ h).2.2 text)
        · rw [tick_fast s w c1 r hb hd hr hms]
          refine ⟨hfirst, ?_, ?_, ?_⟩
          · intro m u h; exact (hmeasured _ h).1 m u rfl
          · intro req t h; exact (hmeasured _ h).2.1 req t rfl
          · intro text h; exact absurd rfl ((hmeasured _ h).2.2 text)

/-! ## The error line -/

/-- C10, as stated, fails: for a transport error after 5 ms the line written has the
spaces first and the digit after them, not the digits first. -/
theorem error_line_pads_on_the_left :
    (step (start plainRequester).1 (.tick refusedWorld)).map
        (fun r => r.2.filter Effect.isErrorLine)
      = some [Effect.print .errorLine
          "2026-11-04 09:05:07 | error |      5ms | connection refused\n"] ∧
    errorLineDigitsFirst "2026-11-04 09:05:07"
        (Since refusedWorld.startNs refusedWorld.endNs) "connection refused"
      = "2026-11-04 09:05:07 | error | 5     ms | connection refused\n" ∧
    "2026-11-04 09:05:07 | error |      5ms | connection refused\n"
      ≠ errorLineDigitsFirst "2026-11-04 09:05:07"
          (Since refusedWorld.startNs refusedWorld.endNs) "connection refused" := by
  decide

/-- C10, amended: for every transport error with message `msg`, the error line is
the time as `YYYY-MM-DD HH:MM:SS` (each field filled with zeros on the left), then
` | error | `, then the decimal digits of the elapsed nanoseconds divided by
1,000,000 preceded by spaces up to 6 characters (spaces first, digits after), then
`ms | `, then `msg` and a newline. -/
theorem error_line_text (s : RunState) (w : TickWorld) (msg : String)
    (hwait : s.phase = .waiting) (hdo : doReturned s w) (hr : w.doResult = .err msg) :
    ∃ s1 tr, step s (.tick w) = some (s1, tr) ∧
      tr.filter Effect.isErrorLine = [Effect.print .errorLine
        (String.mk (zeroPad 4 w.logTime.year ++ '-' :: zeroPad 2 w.logTime.month
            ++ '-' :: zeroPad 2 w.logTime.day ++ ' ' :: zeroPad 2 w.logTime.hour
            ++ ':' :: zeroPad 2 w.logTime.minute ++ ':' :: zeroPad 2 w.logTime.second)
          ++ " | error | "
          ++ String.mk
              (List.replicate
                  (6 - (formatInt (Int.tdiv (Since w.startNs w.endNs) 1000000)).length) ' '
                ++ formatInt (Int.tdiv (Since w.startNs w.endNs) 1000000))
          ++ "ms | " ++ msg ++ "\n")] := by
  obtain ⟨hb, hd⟩ := hdo
  obtain ⟨c1, hc1⟩ := Option.ne_none_iff_exists'.mp hd
  refine ⟨(tick s w).1, (tick s w).2, step_tick s w hwait, ?_⟩
  rw [tick_err s w c1 msg hb hc1 hr, List.filter_append, measured_filter_errorLine,
    sprintf_error, format_timestamp]
  simp [Effect.isErrorLine, padField]

/-- Witness of C10 amended, on the refused connection. -/
theorem error_line_text_witness :
    ∃ s1 tr, step (start plainRequester).1 (.tick refusedWorld) = some (s1, tr) ∧
      tr.filter Effect.isErrorLine = [Effect.print .errorLine
        (String.mk (zeroPad 4 refusedWorld.logTime.year ++ '-' ::
            zeroPad 2 refusedWorld.logTime.month
            ++ '-' :: zeroPad 2 refusedWorld.logTime.day ++ ' ' ::
            zeroPad 2 refusedWorld.logTime.hour
            ++ ':' :: zeroPad 2 refusedWorld.logTime.minute ++ ':' ::
            zeroPad 2 refusedWorld.logTime.second)
          ++ " | error | "
          ++ String.mk
              (List.replicate
                  (6 - (formatInt (Int.tdiv
                    (Since refusedWorld.startNs refusedWorld.endNs) 1000000)).length) ' '
                ++ formatInt (Int.tdiv
                    (Since refusedWorld.startNs refusedWorld.endNs) 1000000))
          ++ "ms | " ++ "connection refused" ++ "\n")] :=
  error_line_text (start plainRequester).1 refusedWorld "connection refused"
    (by decide) (by decide) (by decide)

/-! ## Splitting the override -/

theorem genSplit_ne_nil (sep : Char) (l : List Char) : genSplit sep l ≠ [] := by
  cases l with
  | nil => simp [genSplit]
  | cons c cs =>
    unfold genSplit
    split
    · simp
    · split <;> simp

theorem genSplit_no_sep (sep : Char) (l : List Char) (h : sep ∉ l) : genSplit sep l = [l] := by
  induction l with
  | nil => rfl
  | cons c cs ih =>
    simp only [List.mem_cons, not_or] at h
    have hc : ¬ c = sep := fun e => h.1 e.symm
    simp [genSplit, hc, ih h.2]

theorem genSplit_field (sep : Char) (l rest : List Char) (h : sep ∉ l) :
    genSplit sep (l ++ sep :: rest) = l :: genSplit sep rest := by
  induction l with
  | nil => simp [genSplit]
  | cons c cs ih =>
    simp only [List.mem_cons, not_or] at h
    have hc : ¬ c = sep := fun e => h.1 e.symm
    simp [genSplit, hc, ih h.2]

theorem split_three (host port ip : String)
    (hh : ':' ∉ host.data) (hp : ':' ∉ port.data) (hi : ':' ∉ ip.data) :
    Split (host ++ ":" ++ port ++ ":" ++ ip) ':' = [host, port, ip] := by
  have hdata : (host ++ ":" ++ port ++ ":" ++ ip).data
      = host.data ++ ':' :: (port.data ++ ':' :: ip.data) := by
    simp [String.data_append]
  unfold Split
  rw [hdata, genSplit_field _ _ _ hh, genSplit_field _ _ _ hp, genSplit_no_sep _ _ hi]
  rfl

theorem length_pos_iff (s : String) : s.length > 0 ↔ s ≠ "" := by
  constructor
  · intro h e
    rw [e] at h
    exact absurd h (by decide)
  · intro h
    rcases s with ⟨l⟩
    cases l with
    | nil => exact absurd rfl h
    | cons c cs => simp [String.length]

/-! ## The resolve override -/

theorem start_waiting (c : Requester) (hperiod : 0 < wrap64 (wrap64 c.interval * 1000)) :
    (start c).1.phase = .waiting ∧ (start c).2.filter Effect.isPanic = [] ∧ (start c).1.c = c := by
  unfold start
  simp only [if_neg (not_le.mpr hperiod)]
  split <;> simp [Effect.isPanic]

theorem start_override (c : Requester) (hperiod : 0 < wrap64 (wrap64 c.interval * 1000))
    (hres : c.resolve ≠ "") :
    (start c).1.dialOverride = some (Split c.resolve ':') := by
  unfold start
  simp only [if_neg (not_le.mpr hperiod), if_pos ((length_pos_iff _).mpr hres)]

theorem resolve_three_ne_empty (host port ip : String) :
    host ++ ":" ++ port ++ ":" ++ ip ≠ "" := by
  intro e
  have hdata := congrArg String.data e
  have hnil : ("" : String).data = [] := rfl
  rw [hnil] at hdata
  simp only [String.data_append] at hdata
  have hlen := congrArg List.length hdata
  simp only [List.length_append, List.length_nil] at hlen
  have hcolon : (":" : String).data.length = 1 := rfl
  rw [hcolon] at hlen
  omega

theorem dialContext_three (c : Requester) (host port ip addr : String) :
    dialContext c [host, port, ip] addr
      = ([Effect.print .dialOriginal (Println ["address original =", c.resolve]),
          Effect.print .dialModified (Println ["address modified =", ip ++ ":" ++ port]),
          Effect.dial (ip ++ ":" ++ port)],
         some { c with hostHeader := host }) := by
  simp [dialContext, sprintf_addr]

/-- C6, as stated, fails: for the override `example.com:443:203.0.113.5` the one
address dialed in a tick of `Run` is `203.0.113.5:443`, the ip before the port,
and not `443:203.0.113.5`. -/
theorem override_dials_ip_before_port :
    (Run overrideRequester [.tick fastWorld]).2.filter Effect.isDial
      = [Effect.dial "203.0.113.5:443"] ∧
    Effect.dial "443:203.0.113.5" ∉ (Run overrideRequester [.tick fastWorld]).2 := by
  decide

/-- C6, amended: for every resolve override `host:port:ip` (three fields without
colon), the dial function `Run` installs captures the fields `[host, port, ip]`,
ignores the address it is asked to dial and dials field 2 followed by `:` and
field 1, that is `ip:port`; so does every tick of the loop that opens a
connection. -/
theorem override_dial_address (c : Requester) (host port ip : String)
    (hperiod : 0 < wrap64 (wrap64 c.interval * 1000))
    (hres : c.resolve = host ++ ":" ++ port ++ ":" ++ ip)
    (hh : ':' ∉ host.data) (hp : ':' ∉ port.data) (hi : ':' ∉ ip.data) :
    (start c).1.dialOverride = some [host, port, ip] ∧
    (∀ (c1 : Requester) (addr : String),
      (dialContext c1 [host, port, ip] addr).1.filter Effect.isDial
        = [Effect.dial (ip ++ ":" ++ port)]) ∧
    (∀ (s : RunState) (w : TickWorld) (addr : String),
      s.phase = .waiting → s.dialOverride = some [host, port, ip] →
      w.buildErr = none → w.dial = some addr →
      ∃ s1 tr, step s (.tick w) = some (s1, tr) ∧
        tr.filter Effect.isDial = [Effect.dial (ip ++ ":" ++ port)]) := by
  have hne : c.resolve ≠ "" := by
    rw [hres]; exact resolve_three_ne_empty host port ip
  refine ⟨?_, ?_, ?_⟩
  · rw [start_override c hperiod hne, hres, split_three host port ip hh hp hi]
  · intro c1 addr
    rw [dialContext_three]
    simp [Effect.isDial]
  · intro s w addr hwait hov hb hdial
    have htd : transportDial s w.dial = dialContext s.c [host, port, ip] addr := by
      simp [transportDial, hdial, hov]
    have hret : doReturned s w := ⟨hb, by rw [htd, dialContext_three]; simp⟩
    obtain ⟨logged, htr, -⟩ := tick_after_do s w hret
    have hlogged : logged.filter Effect.isDial = [] := by
      have hd2 : (transportDial s w.dial).2 = some { s.c with hostHeader := host } := by
        rw [htd, dialContext_three]
      cases hr : w.doResult with
      | err msg =>
        have := tick_err s w _ msg hb hd2 hr
        rw [this] at htr
        have := List.append_cancel_left htr
        rw [← this]; simp [Effect.isDial]
      | resp r =>
        by_cases hms : Int.tdiv (Since w.startNs w.endNs) 1000000 > SlowRequestMs
        · cases hread : r.readErr with
          | none =>
            have := tick_slow s w _ r hb hd2 hr hms hread
            rw [this] at htr
            have := List.append_cancel_left htr
            rw [← this]; simp [Effect.isDial]
          | some err =>
            have := tick_slow_read_fail s w _ r err hb hd2 hr hms hread
            rw [this] at htr
            simp only [List.append_assoc] at htr
            have := List.append_cancel_left htr
            rw [← this]
            simp [List.filter_append, runDeferred_filter, Effect.isDial]
        · have := tick_fast s w _ r hb hd2 hr hms
          rw [this] at htr
          have h2 : measured s w ++ [] = measured s w ++ logged := by simpa using htr
          have := List.append_cancel_left h2
          rw [← this]; rfl
    refine ⟨(tick s w).1, (tick s w).2, step_tick s w hwait, ?_⟩
    rw [htr, List.filter_append, hlogged]
    simp [measured, fired, List.filter_append, htd, dialContext_three, Effect.isDial]

/-- Witness of C6 amended, on the override of the specification. -/
theorem override_dial_address_witness :
    (start overrideRequester).1.dialOverride = some ["example.com", "443", "203.0.113.5"] ∧
    (∀ (c1 : Requester) (addr : String),
      (dialContext c1 ["example.com", "443", "203.0.113.5"] addr).1.filter Effect.isDial
        = [Effect.dial ("203.0.113.5" ++ ":" ++ "443")]) ∧
    (∀ (s : RunState) (w : TickWorld) (addr : String),
      s.phase = .waiting → s.dialOverride = some ["example.com", "443", "203.0.113.5"] →
      w.buildErr = none → w.dial = some addr →
      ∃ s1 tr, step s (.tick w) = some (s1, tr) ∧
        tr.filter Effect.isDial = [Effect.dial ("203.0.113.5" ++ ":" ++ "443")]) :=
  override_dial_address overrideRequester "example.com" "443" "203.0.113.5"
    (by decide) (by decide) (by decide) (by decide) (by decide)

/-! ## The host header -/

theorem transportDial_no_clientDo (s : RunState) (a : Option String) :
    (transportDial s a).1.filter Effect.isClientDo = [] := by
  unfold transportDial dialContext
  repeat' split
  all_goals simp [Effect.isClientDo]

theorem tick_clientDo (s : RunState) (w : TickWorld) (req : Request) (t : Int)
    (h : Effect.clientDo req t ∈ (tick s w).2) : req = builtRequest s w := by
  have hfilter : (tick s w).2.filter Effect.isClientDo = [] ∨
      (tick s w).2.filter Effect.isClientDo
        = [Effect.clientDo (builtRequest s w) (wrap64 (wrap64 s.c.timeout * 1000000))] := by
    have hm : (measured s w).filter Effect.isClientDo
        = [Effect.clientDo (builtRequest s w) (wrap64 (wrap64 s.c.timeout * 1000000))] := by
      simp [measured, fired, List.filter_append, transportDial_no_clientDo, Effect.isClientDo]
    cases hb : w.buildErr with
    | some err =>
      left
      rw [tick_build_fail s w err hb]
      simp [List.filter_append, runDeferred_filter, Effect.isClientDo]
    | none =>
      right
      cases hd : (transportDial s w.dial).2 with
      | none =>
        rw [tick_dial_panic s w hb hd]
        simp [fired, List.filter_append, transportDial_no_clientDo, Effect.isClientDo]
      | some c1 =>
        cases hr : w.doResult with
        | err msg =>
          rw [tick_err s w c1 msg hb hd hr]
          simp [List.filter_append, hm, Effect.isClientDo]
        | resp r =>
          by_cases hms : Int.tdiv (Since w.startNs w.endNs) 1000000 > SlowRequestMs
          · cases hread : r.readErr with
            | none =>
              rw [tick_slow s w c1 r hb hd hr hms hread]
              simp [List.filter_append, hm, Effect.isClientDo]
            | some err =>
              rw [tick_slow_read_fail s w c1 r err hb hd hr hms hread]
              simp [List.filter_append, hm, runDeferred_filter, Effect.isClientDo]
          · rw [tick_fast s w c1 r hb hd hr hms]
            exact hm
  have hin : Effect.clientDo req t ∈ (tick s w).2.filter Effect.isClientDo :=
    List.mem_filter.mpr ⟨h, rfl⟩
  rcases hfilter with h0 | h1
  · rw [h0] at hin; simp at hin
  · rw [h1] at hin; simp at hin; exact hin.1

theorem tick_override (s : RunState) (w : TickWorld) :
    (tick s w).1.dialOverride = s.dialOverride := by
  cases hb : w.buildErr with
  | some err => rw [tick_build_fail s w err hb]
  | none =>
    cases hd : (transportDial s w.dial).2 with
    | none => rw [tick_dial_panic s w hb hd]
    | some c1 =>
      cases hr : w.doResult with
      | err msg => rw [tick_err s w c1 msg hb hd hr]
      | resp r =>
        by_cases hms : Int.tdiv (Since w.startNs w.endNs) 1000000 > SlowRequestMs
        · cases hread : r.readErr with
          | none => rw [tick_slow s w c1 r hb hd hr hms hread]
          | some err => rw [tick_slow_read_fail s w c1 r err hb hd hr hms hread]
        · rw [tick_fast s w c1 r hb hd hr hms]

theorem tick_requester_of_do (s : RunState) (w : TickWorld) (c1 : Requester)
    (hb : w.buildErr = none) (hd : (transportDial s w.dial).2 = some c1) :
    (tick s w).1.c = c1 := by
  cases hr : w.doResult with
  | err msg => rw [tick_err s w c1 msg hb hd hr]
  | resp r =>
    by_cases hms : Int.tdiv (Since w.startNs w.endNs) 1000000 > SlowRequestMs
    · cases hread : r.readErr with
      | none => rw [tick_slow s w c1 r hb hd hr hms hread]
      | some err => rw [tick_slow_read_fail s w c1 r err hb hd hr hms hread]
    · rw [tick_fast s w c1 r hb hd hr hms]

theorem tick_requester (s : RunState) (w : TickWorld) :
    (tick s w).1.c = s.c ∨ (transportDial s w.dial).2 = some (tick s w).1.c := by
  cases hb : w.buildErr with
  | some err => left; rw [tick_build_fail s w err hb]
  | none =>
    cases hd : (transportDial s w.dial).2 with
    | none => left; rw [tick_dial_panic s w hb hd]
    | some c1 => right; rw [tick_requester_of_do s w c1 hb hd]

theorem transportDial_three (s : RunState) (host port ip : String) (a : Option String)
    (hov : s.dialOverride = some [host, port, ip]) :
    (transportDial s a).2 = some s.c ∨
      (transportDial s a).2 = some { s.c with hostHeader := host } := by
  cases a with
  | none => left; rfl
  | some addr => right; simp [transportDial, hov, dialContext_three]

theorem tick_hostHeader (s : RunState) (w : TickWorld) (host port ip : String)
    (hov : s.dialOverride = some [host, port, ip]) (hset : s.c.hostHeader = host) :
    (tick s w).1.c.hostHeader = host := by
  rcases tick_requester s w with h | h
  · rw [h, hset]
  · rcases transportDial_three s host port ip w.dial hov with h1 | h1
    · rw [h1] at h
      rw [← Option.some.inj h, hset]
    · rw [h1] at h
      rw [← Option.some.inj h]

theorem step_override (s s1 : RunState) (ev : Event) (tr : List Effect)
    (h : step s ev = some (s1, tr)) : s1.dialOverride = s.dialOverride := by
  unfold step at h
  split at h
  · cases ev with
    | tick w =>
      simp only [Option.some.injEq] at h
      have h1 : (tick s w).1 = s1 := by rw [h]
      rw [← h1, tick_override]
    | stop =>
      simp only [Option.some.injEq, Prod.mk.injEq] at h
      rw [← h.1]
  · simp at h

theorem runLoop_override (evs : List Event) (s : RunState) :
    (runLoop s evs).1.dialOverride = s.dialOverride := by
  induction evs generalizing s with
  | nil => rfl
  | cons ev evs ih =>
    unfold runLoop
    cases hstep : step s ev with
    | none => rfl
    | some r =>
      obtain ⟨s1, tr⟩ := r
      simp only
      rw [ih s1, step_override s s1 ev tr hstep]

theorem runLoop_host_header (host port ip : String) (hhost : host ≠ "") (evs : List Event) :
    ∀ s : RunState, s.dialOverride = some [host, port, ip] → s.c.hostHeader = host →
      ∀ req t, Effect.clientDo req t ∈ (runLoop s evs).2 → req.header = [("Host", [host])] := by
  induction evs with
  | nil => intro s _ _ req t h; simp [runLoop] at h
  | cons ev evs ih =>
    intro s hov hset req t h
    unfold runLoop at h
    cases hstep : step s ev with
    | none => rw [hstep] at h; simp at h
    | some r =>
      obtain ⟨s1, tr⟩ := r
      rw [hstep] at h
      simp only at h
      have hov1 : s1.dialOverride = some [host, port, ip] := by
        rw [step_override s s1 ev tr hstep, hov]
      unfold step at hstep
      split at hstep
      · cases ev with
        | tick w =>
          simp only [Option.some.injEq] at hstep
          have hs1 : s1 = (tick s w).1 := (congrArg Prod.fst hstep).symm
          have htr : tr = (tick s w).2 := (congrArg Prod.snd hstep).symm
          rcases List.mem_append.mp h with h | h
          · rw [htr] at h
            rw [tick_clientDo s w req t h]
            simp [builtRequest, hset, (length_pos_iff host).mpr hhost]
          · exact ih s1 hov1 (by rw [hs1]; exact tick_hostHeader s w host port ip hov hset)
              req t h
        | stop =>
          simp only [Option.some.injEq, Prod.mk.injEq] at hstep
          rcases List.mem_append.mp h with h | h
          · rw [← hstep.2] at h
            simp at h
            exact absurd (runDeferred_mem _ _ h) (by simp)
          · exact ih s1 hov1 (by rw [← hstep.1]; exact hset) req t h
      · simp at hstep

theorem start_no_clientDo (c : Requester) :
    (start c).2.filter Effect.isClientDo = [] := by
  unfold start
  by_cases h1 : wrap64 (wrap64 c.interval * 1000) ≤ 0
  · simp [h1, Effect.isClientDo]
  · by_cases h2 : c.resolve.length > 0 <;> simp [h1, h2, Effect.isClientDo]

/-- C7, as stated, fails: with the override `example.com:443:203.0.113.5` the
request of the first tick is sent with the empty header map, without `Host`. -/
theorem first_request_has_no_host_header :
    (Run overrideRequester [.tick fastWorld]).2.filter Effect.isClientDo
      = [Effect.clientDo
          { method := "GET", url := "http://localhost:9999/ping?42", header := [] }
          2000000000] := by
  decide

theorem step_hostHeader_change (s s1 : RunState) (ev : Event) (tr : List Effect)
    (h : step s ev = some (s1, tr)) :
    s1.c.hostHeader = s.c.hostHeader ∨
      ∃ w addr, ev = .tick w ∧ w.buildErr = none ∧ w.dial = some addr := by
  unfold step at h
  split at h
  · cases ev with
    | tick w =>
      simp only [Option.some.injEq] at h
      have h1 : (tick s w).1 = s1 := by rw [h]
      cases hb : w.buildErr with
      | some err =>
        left
        rw [← h1, tick_build_fail s w err hb]
      | none =>
        cases hdial : w.dial with
        | some addr => exact Or.inr ⟨w, addr, rfl, hb, hdial⟩
        | none =>
          left
          have htd : (transportDial s w.dial).2 = some s.c := by
            rw [hdial]; rfl
          rw [← h1, tick_requester_of_do s w s.c hb htd]
    | stop =>
      left
      simp only [Option.some.injEq, Prod.mk.injEq] at h
      rw [← h.1]
  · simp at h

theorem step_clientDo_header (s s1 : RunState) (ev : Event) (tr : List Effect)
    (h : step s ev = some (s1, tr)) (hempty : s.c.hostHeader = "") (req : Request) (t : Int)
    (hmem : Effect.clientDo req t ∈ tr) : req.header = [] := by
  unfold step at h
  split at h
  · cases ev with
    | tick w =>
      simp only [Option.some.injEq] at h
      have h2 : (tick s w).2 = tr := by rw [h]
      rw [← h2] at hmem
      rw [tick_clientDo s w req t hmem]
      simp [builtRequest, hempty]
    | stop =>
      simp only [Option.some.injEq, Prod.mk.injEq] at h
      rw [← h.2] at hmem
      simp at hmem
      exact absurd (runDeferred_mem _ _ hmem) (by simp)
  · simp at h

theorem runLoop_header_before_dial (w : TickWorld) (evs : List Event) :
    ∀ s : RunState, s.c.hostHeader = "" → (∀ ev ∈ evs, ev.dials = false) →
      ∀ req t, Effect.clientDo req t ∈ (runLoop s (evs ++ [.tick w])).2 →
        req.header = [] := by
  induction evs with
  | nil =>
    intro s hempty _ req t h
    simp only [List.nil_append, runLoop] at h
    cases hstep : step s (.tick w) with
    | none => rw [hstep] at h; simp at h
    | some r =>
      obtain ⟨s1, tr⟩ := r
      rw [hstep] at h
      simp only [List.append_nil] at h
      exact step_clientDo_header s s1 _ tr hstep hempty req t h
  | cons ev evs ih =>
    intro s hempty hno req t h
    simp only [List.cons_append, runLoop] at h
    cases hstep : step s ev with
    | none => rw [hstep] at h; simp at h
    | some r =>
      obtain ⟨s1, tr⟩ := r
      rw [hstep] at h
      simp only at h
      rcases List.mem_append.mp h with h | h
      · exact step_clientDo_header s s1 ev tr hstep hempty req t h
      · have hs1 : s1.c.hostHeader = "" := by
          rcases step_hostHeader_change s s1 ev tr hstep with hsame | ⟨w1, addr, hev, hb, hd⟩
          · rw [hsame, hempty]
          · have hfalse := hno ev (List.mem_cons_self _ _)
            rw [hev] at hfalse
            simp [Event.dials, hb, hd] at hfalse
        exact ih s1 hs1 (fun e he => hno e (List.mem_cons_of_mem _ he)) req t h

/-- C7, amended: when `Run` is started, with a positive ticker period, on a
requester as `NewRequester` makes it (host header empty) and with a resolve
override `host:port:ip` (three fields without colon, host not empty), the host
header changes only in a tick in which the dial function runs: every request built
up to and including the first such tick, the request of the first tick among them,
has the empty header map; a tick in which the installed dial function runs leaves
`host` as host header; and from a state whose host header is `host` on, every
request the loop builds has the header map made of the single entry
`Host = [host]`. -/
theorem host_header_set_by_first_dial (c : Requester) (host port ip : String)
    (hperiod : 0 < wrap64 (wrap64 c.interval * 1000))
    (hnew : c.hostHeader = "") (hres : c.resolve = host ++ ":" ++ port ++ ":" ++ ip)
    (hhost : host ≠ "")
    (hh : ':' ∉ host.data) (hp : ':' ∉ port.data) (hi : ':' ∉ ip.data) :
    (∀ evs w, (∀ ev ∈ evs, ev.dials = false) → ∀ req t,
      Effect.clientDo req t ∈ (Run c (evs ++ [.tick w])).2 → req.header = []) ∧
    (∀ s ev s1 tr, step s ev = some (s1, tr) →
      s1.c.hostHeader = s.c.hostHeader ∨
        ∃ w addr, ev = .tick w ∧ w.buildErr = none ∧ w.dial = some addr) ∧
    (∀ s, Reachable c s → s.phase = .waiting →
      ∀ w addr, w.buildErr = none → w.dial = some addr →
      ∃ s1 tr, step s (.tick w) = some (s1, tr) ∧ s1.c.hostHeader = host) ∧
    (∀ s, Reachable c s → s.c.hostHeader = host → ∀ evs req t,
      Effect.clientDo req t ∈ (runLoop s evs).2 → req.header = [("Host", [host])]) := by
  have hne : c.resolve ≠ "" := by
    rw [hres]; exact resolve_three_ne_empty host port ip
  have hov0 : (start c).1.dialOverride = some [host, port, ip] := by
    rw [start_override c hperiod hne, hres, split_three host port ip hh hp hi]
  have hw := start_waiting c hperiod
  have hreach : ∀ s, Reachable c s → s.dialOverride = some [host, port, ip] := by
    rintro s ⟨evs, rfl⟩
    rw [runLoop_override, hov0]
  refine ⟨?_, ?_, ?_, ?_⟩
  · intro evs w hno req t h
    unfold Run at h
    rcases List.mem_append.mp h with h | h
    · exact absurd (List.mem_filter.mpr ⟨h, rfl⟩) (by rw [start_no_clientDo]; simp)
    · exact runLoop_header_before_dial w evs (start c).1 (by rw [hw.2.2, hnew]) hno req t h
  · intro s ev s1 tr h
    exact step_hostHeader_change s s1 ev tr h
  · intro s hs hwait w addr hb hdial
    refine ⟨(tick s w).1, (tick s w).2, step_tick s w hwait, ?_⟩
    have htd : (transportDial s w.dial).2 = some { s.c with hostHeader := host } := by
      simp [transportDial, hdial, hreach s hs, dialContext_three]
    rw [tick_requester_of_do s w _ hb htd]
  · intro s hs hset evs req t h
    exact runLoop_host_header host port ip hhost evs s (hreach s hs) hset req t h

/-- Witness of C7 amended, on the override of the specification. -/
theorem host_header_set_by_first_dial_witness :
    (0 < wrap64 (wrap64 overrideRequester.interval * 1000) ∧
      overrideRequester.hostHeader = "" ∧
      overrideRequester.resolve = "example.com" ++ ":" ++ "443" ++ ":" ++ "203.0.113.5") ∧
    (∀ evs w, (∀ ev ∈ evs, ev.dials = false) → ∀ req t,
      Effect.clientDo req t ∈ (Run overrideRequester (evs ++ [.tick w])).2 →
      req.header = []) ∧
    (∀ s ev s1 tr, step s ev = some (s1, tr) →
      s1.c.hostHeader = s.c.hostHeader ∨
        ∃ w addr, ev = .tick w ∧ w.buildErr = none ∧ w.dial = some addr) ∧
    (∀ s, Reachable overrideRequester s → s.phase = .waiting →
      ∀ w addr, w.buildErr = none → w.dial = some addr →
      ∃ s1 tr, step s (.tick w) = some (s1, tr) ∧ s1.c.hostHeader = "example.com") ∧
    (∀ s, Reachable overrideRequester s → s.c.hostHeader = "example.com" → ∀ evs req t,
      Effect.clientDo req t ∈ (runLoop s evs).2 →
      req.header = [("Host", ["example.com"])]) :=
  ⟨⟨by decide, by decide, by decide⟩,
    host_header_set_by_first_dial overrideRequester "example.com" "443" "203.0.113.5"
      (by decide) (by decide) (by decide) (by decide) (by decide) (by decide) (by decide)⟩

/-! ## Overrides that do not have three fields -/

theorem dialContext_short (c : Requester) (pieces : List String) (addr : String)
    (hlen : pieces.length < 3) :
    dialContext c pieces addr
      = ([Effect.print .dialOriginal (Println ["address original =", c.resolve]),
          Effect.panic (indexOutOfRange 2 pieces.length)], none) := by
  have h2 : pieces[2]? = none := List.getElem?_eq_none (by omega)
  simp [dialContext, h2]

theorem dialContext_long (c : Requester) (pieces : List String) (addr : String)
    (hlen : 3 ≤ pieces.length) :
    (dialContext c pieces addr).2 ≠ none := by
  match pieces, hlen with
  | p0 :: p1 :: p2 :: rest, _ => simp [dialContext]

/-- C8, as stated, fails: an override of four fields never fails (the loop starts,
a tick that dials sends its sample and leaves the loop waiting), and an override of
two fields is installed without failure (the loop starts and waits; it takes the
stop signal and returns). -/
theorem malformed_override_installs_without_failure :
    (Split fourFieldRequester.resolve ':').length = 4 ∧
    (Run fourFieldRequester [.tick fastWorld]).1.phase = .waiting ∧
    (Run fourFieldRequester [.tick fastWorld]).2.filter Effect.isPanic = [] ∧
    (Run fourFieldRequester [.tick fastWorld]).2.filter Effect.isSend
      = [Effect.send 10000000] ∧
    (Split twoFieldRequester.resolve ':').length = 2 ∧
    (start twoFieldRequester).1.phase = .waiting ∧
    (start twoFieldRequester).2 = [Effect.newTicker 1000000, Effect.setDialContext] ∧
    (Run twoFieldRequester [Stop]).1.phase = .returned ∧
    (Run twoFieldRequester [Stop]).2.filter Effect.isPanic = [] := by
  decide

theorem start_not_positive (c : Requester) (hperiod : wrap64 (wrap64 c.interval * 1000) ≤ 0) :
    start c = ({ c := c, phase := .panicked, tickerRunning := false, dialOverride := none,
                 deferred := 0 },
               [Effect.panic "non-positive interval for NewTicker"]) := by
  unfold start
  simp only [if_pos hperiod]

/-- C8, amended: for every non-empty resolve override: when the ticker period is
not positive, `Run` panics in `time.NewTicker` before anything is installed; when it
is positive, installing the override does not fail, whatever the number of fields:
`Run` reaches its loop with the dial function holding the fields of the split.
When there are fewer than 3 fields, the out-of-range access (index 2) happens in a
tick in which the dial function runs, after the request was built and `client.Do`
called and after the `address original` line, and before any sample of that tick
is sent.  When there are 3 fields or more the dial function never panics. -/
theorem malformed_override_fails_at_first_dial (c : Requester) (hres : c.resolve ≠ "") :
    (wrap64 (wrap64 c.interval * 1000) ≤ 0 →
      (start c).1.phase = .panicked ∧ (start c).1.dialOverride = none ∧
      (start c).2 = [Effect.panic "non-positive interval for NewTicker"] ∧
      ∀ evs, Run c evs = start c) ∧
    (0 < wrap64 (wrap64 c.interval * 1000) →
      (start c).1.phase = .waiting ∧ (start c).2.filter Effect.isPanic = [] ∧
      (start c).1.dialOverride = some (Split c.resolve ':')) ∧
    (∀ (s : RunState) (w : TickWorld) (addr : String),
      s.phase = .waiting → s.dialOverride = some (Split c.resolve ':') →
      (Split c.resolve ':').length < 3 → w.buildErr = none → w.dial = some addr →
      ∃ s1 tr req timeoutNs text, step s (.tick w) = some (s1, tr) ∧
        s1.phase = .panicked ∧
        tr = [Effect.now w.startNs, Effect.newRequest req.method req.url,
              Effect.clientDo req timeoutNs, Effect.print .dialOriginal text,
              Effect.panic (indexOutOfRange 2 (Split c.resolve ':').length)]) ∧
    (∀ (s : RunState) (a : Option String),
      s.dialOverride = some (Split c.resolve ':') → 3 ≤ (Split c.resolve ':').length →
      (transportDial s a).2 ≠ none) := by
  refine ⟨?_, ?_, ?_, ?_⟩
  · intro hperiod
    have hs := start_not_positive c hperiod
    refine ⟨by rw [hs], by rw [hs], by rw [hs], ?_⟩
    intro evs
    have hloop : runLoop (start c).1 evs = ((start c).1, []) := by
      cases evs with
      | nil => rfl
      | cons ev rest =>
        unfold runLoop
        rw [step_none_of_not_waiting (start c).1 ev (by rw [hs]; simp)]
    unfold Run
    rw [hloop]
    simp
  · intro hperiod
    have hw := start_waiting c hperiod
    exact ⟨hw.1, hw.2.1, start_override c hperiod hres⟩
  · intro s w addr hwait hov hlen hb hdial
    have htd : transportDial s w.dial = dialContext s.c (Split c.resolve ':') addr := by
      simp [transportDial, hdial, hov]
    have hd : (transportDial s w.dial).2 = none := by
      rw [htd, dialContext_short _ _ _ hlen]
    refine ⟨(tick s w).1, (tick s w).2, builtRequest s w,
      wrap64 (wrap64 s.c.timeout * 1000000),
      Println ["address original =", s.c.resolve], step_tick s w hwait, ?_, ?_⟩
    · rw [tick_dial_panic s w hb hd]
    · rw [tick_dial_panic s w hb hd, htd, dialContext_short _ _ _ hlen]
      rfl
  · intro s a hov hlen
    cases a with
    | none => simp [transportDial]
    | some addr =>
      simp only [transportDial, hov]
      exact dialContext_long _ _ _ hlen

/-- Witness of C8 amended, on the override of two fields. -/
theorem malformed_override_fails_at_first_dial_witness :
    twoFieldRequester.resolve ≠ "" ∧
    (wrap64 (wrap64 twoFieldRequester.interval * 1000) ≤ 0 →
      (start twoFieldRequester).1.phase = .panicked ∧
      (start twoFieldRequester).1.dialOverride = none ∧
      (start twoFieldRequester).2 = [Effect.panic "non-positive interval for NewTicker"] ∧
      ∀ evs, Run twoFieldRequester evs = start twoFieldRequester) ∧
    (0 < wrap64 (wrap64 twoFieldRequester.interval * 1000) →
      (start twoFieldRequester).1.phase = .waiting ∧
      (start twoFieldRequester).2.filter Effect.isPanic = [] ∧
      (start twoFieldRequester).1.dialOverride
        = some (Split twoFieldRequester.resolve ':')) ∧
    (∀ (s : RunState) (w : TickWorld) (addr : String),
      s.phase = .waiting → s.dialOverride = some (Split twoFieldRequester.resolve ':') →
      (Split twoFieldRequester.resolve ':').length < 3 → w.buildErr = none →
      w.dial = some addr →
      ∃ s1 tr req timeoutNs text, step s (.tick w) = some (s1, tr) ∧
        s1.phase = .panicked ∧
        tr = [Effect.now w.startNs, Effect.newRequest req.method req.url,
              Effect.clientDo req timeoutNs, Effect.print .dialOriginal text,
              Effect.panic (indexOutOfRange 2 (Split twoFieldRequester.resolve ':').length)]) ∧
    (∀ (s : RunState) (a : Option String),
      s.dialOverride = some (Split twoFieldRequester.resolve ':') →
      3 ≤ (Split twoFieldRequester.resolve ':').length →
      (transportDial s a).2 ≠ none) :=
  ⟨by decide, malformed_override_fails_at_first_dial twoFieldRequester (by decide)⟩

/-! ## The theorems at concrete inputs -/

/-- Witness of C1, on the 10 ms tick of a requester without override. -/
theorem tick_sends_one_sample_witness :
    (start plainRequester).1.phase = .waiting ∧
    doReturned (start plainRequester).1 fastWorld ∧
    ∃ s1 tr, step (start plainRequester).1 (.tick fastWorld) = some (s1, tr) ∧
      tr.filter Effect.isSend = [Effect.send (Since fastWorld.startNs fastWorld.endNs)] ∧
      (∃ req timeoutNs dialed logged,
        tr = [Effect.now fastWorld.startNs, Effect.newRequest req.method req.url,
              Effect.clientDo req timeoutNs] ++ dialed
              ++ [Effect.now fastWorld.endNs,
                  Effect.send (Since fastWorld.startNs fastWorld.endNs)] ++ logged ∧
        dialed.filter Effect.isErrorLine = [] ∧ dialed.filter Effect.isSlowLine = [] ∧
        dialed.filter Effect.isSend = [] ∧ logged.filter Effect.isSend = []) ∧
      (minDuration ≤ fastWorld.endNs - fastWorld.startNs →
        fastWorld.endNs - fastWorld.startNs ≤ maxDuration →
        Since fastWorld.startNs fastWorld.endNs = fastWorld.endNs - fastWorld.startNs) :=
  ⟨by decide, by decide,
    tick_sends_one_sample (start plainRequester).1 fastWorld (by decide) (by decide)⟩

/-- Witness of C2, on the refused connection. -/
theorem error_line_iff_transport_error_witness :
    (start plainRequester).1.phase = .waiting ∧
    ∃ s1 tr, step (start plainRequester).1 (.tick refusedWorld) = some (s1, tr) ∧
      (tr.filter Effect.isErrorLine ≠ [] ↔
        (doReturned (start plainRequester).1 refusedWorld ∧
          ∃ msg, refusedWorld.doResult = .err msg)) ∧
      (∀ r, refusedWorld.doResult = .resp r → tr.filter Effect.isErrorLine = []) ∧
      (doReturned (start plainRequester).1 refusedWorld →
        ∀ msg, refusedWorld.doResult = .err msg →
        (tr.filter Effect.isErrorLine).length = 1 ∧
        tr.filter Effect.isSlowLine = [] ∧
        tr.filter Effect.isReadAll = [] ∧
        tr.filter Effect.isSend
          = [Effect.send (Since refusedWorld.startNs refusedWorld.endNs)] ∧
        (∃ pre text, tr = pre ++ [Effect.send (Since refusedWorld.startNs refusedWorld.endNs),
                                  Effect.print .errorLine text]) ∧
        s1.phase = .waiting ∧ ∀ ev, (step s1 ev).isSome = true) :=
  ⟨by decide, error_line_iff_transport_error (start plainRequester).1 refusedWorld (by decide)⟩

/-- Witness of C4, on the 600 ms tick. -/
theorem url_and_slow_line_carry_request_id_witness :
    (start plainRequester).1.phase = .waiting ∧
    ∃ s1 tr, step (start plainRequester).1 (.tick slowWorld) = some (s1, tr) ∧
      Effect.newRequest "GET"
        ((start plainRequester).1.c.url ++ "?" ++ Nat.repr slowWorld.requestID) ∈ tr ∧
      (∀ m u, Effect.newRequest m u ∈ tr →
        u = (start plainRequester).1.c.url ++ "?" ++ Nat.repr slowWorld.requestID) ∧
      (∀ req t, Effect.clientDo req t ∈ tr →
        req.url = (start plainRequester).1.c.url ++ "?" ++ Nat.repr slowWorld.requestID) ∧
      (∀ text, Effect.print .slowLine text ∈ tr →
        ∃ r head, slowWorld.doResult = .resp r ∧ r.readErr = none ∧
          text = head ++ r.body ++ " | " ++ Nat.repr slowWorld.requestID ++ "\n") :=
  ⟨by decide,
    url_and_slow_line_carry_request_id (start plainRequester).1 slowWorld (by decide)⟩

/-- Witness of C5, on the request that cannot be built. -/
theorem local_failures_fatal_transport_errors_not_witness :
    (start plainRequester).1.phase = .waiting ∧
    ∃ s1 tr, step (start plainRequester).1 (.tick malformedWorld) = some (s1, tr) ∧
      (∀ err, malformedWorld.buildErr = some err →
        s1.phase = .panicked ∧ (∀ ev, step s1 ev = none) ∧ Effect.panic err ∈ tr ∧
        tr.filter Effect.isSend = [] ∧ tr.filter Effect.isPrint = []) ∧
      (∀ r err, doReturned (start plainRequester).1 malformedWorld →
        malformedWorld.doResult = .resp r →
        Int.tdiv (Since malformedWorld.startNs malformedWorld.endNs) 1000000 > SlowRequestMs →
        r.readErr = some err →
        s1.phase = .panicked ∧ (∀ ev, step s1 ev = none) ∧
        tr.filter Effect.isSlowLine = [] ∧
        tr.filter Effect.isSend
          = [Effect.send (Since malformedWorld.startNs malformedWorld.endNs)] ∧
        ∃ pre post,
          tr = pre ++ Effect.send (Since malformedWorld.startNs malformedWorld.endNs) :: post ∧
          Effect.panic err ∈ post) ∧
      (∀ msg, doReturned (start plainRequester).1 malformedWorld →
        malformedWorld.doResult = .err msg →
        s1.phase = .waiting ∧ (∀ ev, (step s1 ev).isSome = true) ∧
        tr.filter Effect.isPanic = []) :=
  ⟨by decide,
    local_failures_fatal_transport_errors_not (start plainRequester).1 malformedWorld
      (by decide)⟩

/-- Witness of C9, on the loop right after its start. -/
theorem stop_terminates_without_send_witness :
    (start plainRequester).1.phase = .waiting ∧
    ∃ s1 tr, step (start plainRequester).1 Stop = some (s1, tr) ∧
      s1.phase = .returned ∧ s1.tickerRunning = false ∧ Effect.tickerStop ∈ tr ∧
      tr.filter Effect.isSend = [] ∧ tr.filter Effect.isPrint = [] ∧
      (∀ ev, step s1 ev = none) ∧
      (∀ evs, runLoop (start plainRequester).1 (Stop :: evs) = (s1, tr)) :=
  ⟨by decide, stop_terminates_without_send (start plainRequester).1 (by decide)⟩

end Lib
